import Mathlib

/-!
Shallow embedding of the two playback-engine implementations of the
repository: the `AudioManager` class (`src/services/AudioManager.ts`,
namespace `AM` below) and the `AudioEngine` class (the unnamed module,
namespace `AE` below).  Hardware time (`audioContext.currentTime`) is
passed explicitly to every operation that reads it.  The hardware source
nodes that have been started and not yet stopped are tracked as a list of
node ids, so orphaned sources remain observable.  Times, positions and
gains are rationals; the transcendental crossfader curve of the
`AudioEngine` is embedded over the reals.
-/

set_option maxHeartbeats 1000000
set_option linter.unusedVariables false

/-- Deck identifier: the string-literal union of the source. -/
inductive DeckId : Type
  | A : DeckId
  | B : DeckId
deriving DecidableEq

namespace AM

/-- One entry of `AudioManager.tracks` (interface `AudioTrack`): the decoded
buffer is always present and is represented by its duration; `source` is the
`AudioBufferSourceNode` reference (a hardware node id), `none` when unset. -/
structure AMTrack : Type where
  duration : ℚ
  source : Option ℕ
  isPlaying : Bool
  startTime : ℚ
  pausedAt : ℚ
  currentTime : ℚ
deriving DecidableEq

/-- Lookup in the `tracks` map (JS `Map.get`). -/
def lookupT (id : String) : List (String × AMTrack) → Option AMTrack
  | [] => none
  | (k, v) :: rest => if k = id then some v else lookupT id rest

/-- JS `Map.set`: replace the entry in place, or append a new one. -/
def insertT (id : String) (t : AMTrack) : List (String × AMTrack) → List (String × AMTrack)
  | [] => [(id, t)]
  | (k, v) :: rest => if k = id then (id, t) :: rest else (k, v) :: insertT id t rest

/-- In-place mutation of the track object held in the map. -/
def updateT (id : String) (f : AMTrack → AMTrack) :
    List (String × AMTrack) → List (String × AMTrack)
  | [] => []
  | (k, v) :: rest => if k = id then (k, f v) :: rest else (k, v) :: updateT id f rest

/-- State of one `AudioManager` instance: the `tracks` map, the ids of
hardware source nodes that have been started and not yet stopped, the next
fresh node id, the automation targets of the three shared gain nodes, and
the number of `onTrackEnd` notifications fired so far. -/
structure AMState : Type where
  tracks : List (String × AMTrack)
  live : List ℕ
  nextSrc : ℕ
  deckAGainT : ℚ
  deckBGainT : ℚ
  masterGainT : ℚ
  endNotifications : ℕ
deriving DecidableEq

/-- State right after `initializeAudioContext`: master gain `0.8`, deck
gains `0.75`, no tracks, no live sources. -/
def amInit : AMState :=
  { tracks := [], live := [], nextSrc := 0,
    deckAGainT := 3/4, deckBGainT := 3/4, masterGainT := 4/5,
    endNotifications := 0 }

/-- `loadTrack` (success path of decoding): store a fresh `AudioTrack`
record with `isPlaying = false`, `startTime = 0`, `pausedAt = 0`,
`currentTime = 0`.  A playing source under the same id is not stopped. -/
def loadTrack (id : String) (dur : ℚ) (s : AMState) : AMState :=
  let fresh : AMTrack :=
    { duration := dur, source := none, isPlaying := false,
      startTime := 0, pausedAt := 0, currentTime := 0 }
  { s with tracks := insertT id fresh s.tracks }

/-- `if (track.source) { track.source.stop(); track.source.disconnect(); }`:
the referenced node, if any, leaves the set of live nodes. -/
def stopOld (t : AMTrack) (live : List ℕ) : List ℕ :=
  match t.source with
  | some n => live.erase n
  | none => live

/-- `playTrack(trackId, deckId)` at hardware time `now`: stop the old
source if the reference is set, create a fresh node, start it at offset
`pausedAt`, record `startTime = now - offset`. -/
def playTrack (id : String) (deck : DeckId) (now : ℚ) (s : AMState) : Bool × AMState :=
  match lookupT id s.tracks with
  | none => (false, s)
  | some t =>
      let live₁ := stopOld t s.live
      let m := s.nextSrc
      let offset := t.pausedAt
      (true,
        { s with
            tracks := updateT id (fun u =>
              { u with source := some m, startTime := now - offset,
                       isPlaying := true, pausedAt := 0 }) s.tracks,
            live := m :: live₁,
            nextSrc := m + 1 })

/-- `pauseTrack(trackId)` at hardware time `now`: returns `false` when the
track is missing or not playing; the `source` field is not cleared. -/
def pauseTrack (id : String) (now : ℚ) (s : AMState) : Bool × AMState :=
  match lookupT id s.tracks with
  | none => (false, s)
  | some t =>
      if t.isPlaying then
        (true,
          { s with
              tracks := updateT id (fun u =>
                { u with pausedAt := now - u.startTime, isPlaying := false,
                         currentTime := now - u.startTime }) s.tracks,
              live := stopOld t s.live })
      else (false, s)

/-- `stopTrack(trackId)`: the `source` field is not cleared. -/
def stopTrack (id : String) (s : AMState) : Bool × AMState :=
  match lookupT id s.tracks with
  | none => (false, s)
  | some t =>
      (true,
        { s with
            tracks := updateT id (fun u =>
              { u with isPlaying := false, pausedAt := 0,
                       currentTime := 0, startTime := 0 }) s.tracks,
            live := stopOld t s.live })

/-- `getCurrentTime(trackId)` at hardware time `now`. -/
def getCurrentTime (id : String) (now : ℚ) (s : AMState) : ℚ :=
  match lookupT id s.tracks with
  | none => 0
  | some t => if t.isPlaying then now - t.startTime else t.pausedAt

/-- `seekTo(trackId, position, deckId)` at hardware time `now`. -/
def seekTo (id : String) (position : ℚ) (deck : DeckId) (now : ℚ) (s : AMState) :
    Bool × AMState :=
  match lookupT id s.tracks with
  | none => (false, s)
  | some t =>
      let wasPlaying := t.isPlaying
      let s₁ := (stopTrack id s).2
      let s₂ := { s₁ with tracks := updateT id (fun u =>
        { u with pausedAt := max 0 (min t.duration position) }) s₁.tracks }
      (true, if wasPlaying then (playTrack id deck now s₂).2 else s₂)

/-- `setDeckVolume(deckId, volume)`: smoothed-ramp target on the deck's
gain node. -/
def setDeckVolume (deck : DeckId) (volume : ℚ) (s : AMState) : AMState :=
  match deck with
  | DeckId.A => { s with deckAGainT := max 0 (min 1 volume) }
  | DeckId.B => { s with deckBGainT := max 0 (min 1 volume) }

/-- `setMasterVolume(volume)`. -/
def setMasterVolume (volume : ℚ) (s : AMState) : AMState :=
  { s with masterGainT := max 0 (min 1 volume) }

/-- `setCrossfader(position)`: position in `[-1, 1]`, linear gain law
written into the two deck gain nodes. -/
def setCrossfader (position : ℚ) (s : AMState) : AMState :=
  let clampedPosition := max (-1) (min 1 position)
  let gainA := if clampedPosition ≤ 0 then 1 else 1 - clampedPosition
  let gainB := if 0 ≤ clampedPosition then 1 else 1 + clampedPosition
  { s with deckAGainT := gainA, deckBGainT := gainB }

/-- Natural end of hardware node `n`: the node stops rendering; delivery of
its `ended` event happens separately (`deliverEnded`). -/
def hwEnd (n : ℕ) (s : AMState) : AMState :=
  { s with live := s.live.erase n }

/-- Delivery of the `onended` handler installed by `playTrack` on a source
of track `id`: guarded by `track.isPlaying`, it resets the track and fires
the `onTrackEnd` callback. -/
def deliverEnded (id : String) (s : AMState) : AMState :=
  match lookupT id s.tracks with
  | none => s
  | some t =>
      if t.isPlaying then
        { s with
            tracks := updateT id (fun u =>
              { u with isPlaying := false, currentTime := 0, pausedAt := 0 }) s.tracks,
            endNotifications := s.endNotifications + 1 }
      else s

/-- Body of the `forEach` in `startPositionTracking`, for one map key. -/
def pollStep (now : ℚ) (s : AMState) (id : String) : AMState :=
  match lookupT id s.tracks with
  | none => s
  | some t =>
      if t.isPlaying then
        let s₁ := { s with tracks := updateT id (fun u =>
          { u with currentTime := now - u.startTime }) s.tracks }
        if now - t.startTime ≥ t.duration then (stopTrack id s₁).2 else s₁
      else s

/-- One animation-frame tick of `startPositionTracking` at hardware time
`now`. -/
def pollTick (now : ℚ) (s : AMState) : AMState :=
  (s.tracks.map Prod.fst).foldl (pollStep now) s

/-- The transport-relevant part of an `AudioManager` state: everything
except the three gain-node automation targets. -/
def transportOf (s : AMState) :
    List (String × AMTrack) × List ℕ × ℕ × ℕ :=
  (s.tracks, s.live, s.nextSrc, s.endNotifications)

end AM

namespace AE

/-- One `DeckAudioState` of the `AudioEngine`: the loaded `audioTrack` is
represented by its presence flag and its buffer duration. -/
structure AEDeck : Type where
  hasTrack : Bool
  trackDuration : ℚ
  isPlaying : Bool
  position : ℚ
  volume : ℚ
  startTime : ℚ
  pauseTime : ℚ
deriving DecidableEq

/-- State of the `AudioEngine`: two decks, the two source-node references
(`true` iff non-null), the stored crossfader position and master volume. -/
structure AEState : Type where
  deckA : AEDeck
  deckB : AEDeck
  deckASource : Bool
  deckBSource : Bool
  crossfaderPosition : ℚ
  masterVolume : ℚ
deriving DecidableEq

def deckOf : DeckId → AEState → AEDeck
  | DeckId.A, s => s.deckA
  | DeckId.B, s => s.deckB

def setDeck : DeckId → AEDeck → AEState → AEState
  | DeckId.A, d, s => { s with deckA := d }
  | DeckId.B, d, s => { s with deckB := d }

def sourceOf : DeckId → AEState → Bool
  | DeckId.A, s => s.deckASource
  | DeckId.B, s => s.deckBSource

def setSource : DeckId → Bool → AEState → AEState
  | DeckId.A, b, s => { s with deckASource := b }
  | DeckId.B, b, s => { s with deckBSource := b }

/-- Initial per-deck state of the source (volume `0.75`, nothing loaded). -/
def initDeck : AEDeck :=
  { hasTrack := false, trackDuration := 0, isPlaying := false,
    position := 0, volume := 3/4, startTime := 0, pauseTime := 0 }

/-- Engine state right after `setupAudioGraph` (crossfader at center,
master volume `0.8`). -/
def aeInit : AEState :=
  { deckA := initDeck, deckB := initDeck,
    deckASource := false, deckBSource := false,
    crossfaderPosition := 1/2, masterVolume := 4/5 }

/-- `playDeck(deckId)` at hardware time `now`. -/
def playDeck (d : DeckId) (now : ℚ) (s : AEState) : Bool × AEState :=
  let dk := deckOf d s
  if dk.hasTrack = false then (false, s)
  else if dk.isPlaying then (true, s)
  else
    (true, setSource d true
      (setDeck d { dk with isPlaying := true, startTime := now - dk.position } s))

/-- `pauseDeck(deckId)` at hardware time `now`. -/
def pauseDeck (d : DeckId) (now : ℚ) (s : AEState) : AEState :=
  let dk := deckOf d s
  if dk.isPlaying = false ∨ sourceOf d s = false then s
  else
    setSource d false
      (setDeck d { dk with position := now - dk.startTime, pauseTime := now,
                           isPlaying := false } s)

/-- `stopDeck(deckId)`. -/
def stopDeck (d : DeckId) (s : AEState) : AEState :=
  let dk := deckOf d s
  if dk.isPlaying = false ∨ sourceOf d s = false then
    setDeck d { dk with position := 0, isPlaying := false } s
  else
    setSource d false
      (setDeck d { dk with isPlaying := false, position := 0,
                           startTime := 0, pauseTime := 0 } s)

/-- `loadTrackToDeck(audioTrack, deckId)`: the buffer is represented by its
duration `dur`. -/
def loadTrackToDeck (dur : ℚ) (d : DeckId) (s : AEState) : AEState :=
  let s₁ := if (deckOf d s).isPlaying then stopDeck d s else s
  setDeck d { deckOf d s₁ with hasTrack := true, trackDuration := dur,
                               position := 0 } s₁

/-- The `onended` handler installed by `playDeck`. -/
def sourceEnded (d : DeckId) (s : AEState) : AEState :=
  if (deckOf d s).isPlaying then stopDeck d s else s

/-- `getCurrentPosition(deckId)` at hardware time `now`. -/
def getCurrentPosition (d : DeckId) (now : ℚ) (s : AEState) : ℚ :=
  let dk := deckOf d s
  if dk.isPlaying = false then dk.position else now - dk.startTime

/-- `setDeckVolume(deckId, volume)` (the gain-node target equals the stored
clamped volume). -/
def setDeckVolume (d : DeckId) (volume : ℚ) (s : AEState) : AEState :=
  setDeck d { deckOf d s with volume := max 0 (min 1 volume) } s

/-- `setMasterVolume(volume)`. -/
def setMasterVolume (volume : ℚ) (s : AEState) : AEState :=
  { s with masterVolume := max 0 (min 1 volume) }

/-- `setCrossfader(position)`: clamp to `[0, 1]` and store; the gain
targets applied by `updateCrossfader` are `updateCrossfaderGainA` and
`updateCrossfaderGainB` of the stored position. -/
def setCrossfader (position : ℚ) (s : AEState) : AEState :=
  { s with crossfaderPosition := max 0 (min 1 position) }

/-- Gain applied to deck A by `updateCrossfader`: `cos(position * π / 2)`. -/
noncomputable def updateCrossfaderGainA (position : ℚ) : ℝ :=
  Real.cos ((position : ℝ) * Real.pi / 2)

/-- Gain applied to deck B by `updateCrossfader`: `sin(position * π / 2)`. -/
noncomputable def updateCrossfaderGainB (position : ℚ) : ℝ :=
  Real.sin ((position : ℝ) * Real.pi / 2)

/-- One public engine operation (`seek` does not exist on `AudioEngine`). -/
inductive AEOp : Type
  | play (d : DeckId) (now : ℚ)
  | pause (d : DeckId) (now : ℚ)
  | stop (d : DeckId)
  | load (dur : ℚ) (d : DeckId)
  | ended (d : DeckId)
  | setVol (d : DeckId) (v : ℚ)
  | setMaster (v : ℚ)
  | setCross (p : ℚ)

def AEStep (s : AEState) : AEOp → AEState
  | AEOp.play d now => (playDeck d now s).2
  | AEOp.pause d now => pauseDeck d now s
  | AEOp.stop d => stopDeck d s
  | AEOp.load dur d => loadTrackToDeck dur d s
  | AEOp.ended d => sourceEnded d s
  | AEOp.setVol d v => setDeckVolume d v s
  | AEOp.setMaster v => setMasterVolume v s
  | AEOp.setCross p => setCrossfader p s

/-- Engine state after a sequence of operations from the initial state. -/
def AERun (ops : List AEOp) : AEState :=
  ops.foldl AEStep aeInit

/-- The transport-relevant part of an `AudioEngine` state: all deck fields
except the per-deck volume, plus the two source references. -/
def transportOf (s : AEState) :
    (Bool × ℚ × Bool × ℚ × ℚ × ℚ) × (Bool × ℚ × Bool × ℚ × ℚ × ℚ) × Bool × Bool :=
  ((s.deckA.hasTrack, s.deckA.trackDuration, s.deckA.isPlaying, s.deckA.position,
    s.deckA.startTime, s.deckA.pauseTime),
   (s.deckB.hasTrack, s.deckB.trackDuration, s.deckB.isPlaying, s.deckB.position,
    s.deckB.startTime, s.deckB.pauseTime),
   s.deckASource, s.deckBSource)

/-- Engine invariants: the source reference of a deck is non-null exactly
when the deck is playing, and a deck without a loaded track sits at
position 0 and is not playing. -/
def aeInv (s : AEState) : Prop :=
  s.deckASource = s.deckA.isPlaying ∧ s.deckBSource = s.deckB.isPlaying ∧
  (s.deckA.hasTrack = false → s.deckA.position = 0 ∧ s.deckA.isPlaying = false) ∧
  (s.deckB.hasTrack = false → s.deckB.position = 0 ∧ s.deckB.isPlaying = false)

end AE

namespace AM

@[simp]
theorem lookupT_insertT_self (id : String) (t : AMTrack) (ts : List (String × AMTrack)) :
    lookupT id (insertT id t ts) = some t := by
  induction ts with
  | nil => simp [lookupT, insertT]
  | cons hd tl ih =>
      obtain ⟨k, v⟩ := hd
      by_cases hk : k = id
      · simp [lookupT, insertT, hk]
      · simp [lookupT, insertT, hk, ih]

@[simp]
theorem lookupT_updateT_self (id : String) (f : AMTrack → AMTrack)
    (ts : List (String × AMTrack)) :
    lookupT id (updateT id f ts) = (lookupT id ts).map f := by
  induction ts with
  | nil => simp [lookupT, updateT]
  | cons hd tl ih =>
      obtain ⟨k, v⟩ := hd
      by_cases hk : k = id
      · simp [lookupT, updateT, hk]
      · simp [lookupT, updateT, hk, ih]

theorem lookupT_updateT_ne (j id : String) (hne : j ≠ id) (f : AMTrack → AMTrack)
    (ts : List (String × AMTrack)) :
    lookupT j (updateT id f ts) = lookupT j ts := by
  induction ts with
  | nil => simp [lookupT, updateT]
  | cons hd tl ih =>
      obtain ⟨k, v⟩ := hd
      by_cases hk : k = id
      · subst hk
        simp [lookupT, updateT, Ne.symm hne]
      · by_cases hj : k = j <;> simp [lookupT, updateT, hk, hj, hne, ih]

end AM

namespace AE

theorem aeInv_init : aeInv aeInit := by
  simp [aeInv, aeInit, initDeck]

theorem aeInv_step (s : AEState) (op : AEOp) (h : aeInv s) : aeInv (AEStep s op) := by
  obtain ⟨h1, h2, h3, h4⟩ := h
  cases op with
  | play d now =>
      cases d <;>
        simp only [AEStep, playDeck, deckOf, setDeck, setSource, sourceOf] <;>
        split_ifs <;> simp_all [aeInv]
  | pause d now =>
      cases d <;>
        simp only [AEStep, pauseDeck, deckOf, setDeck, setSource, sourceOf] <;>
        split_ifs <;> simp_all [aeInv]
  | stop d =>
      cases d <;>
        simp only [AEStep, stopDeck, deckOf, setDeck, setSource, sourceOf] <;>
        split_ifs <;> simp_all [aeInv]
  | load dur d =>
      cases d <;>
        simp only [AEStep, loadTrackToDeck, stopDeck, deckOf, setDeck, setSource, sourceOf] <;>
        split_ifs <;> simp_all [aeInv]
  | ended d =>
      cases d <;>
        simp only [AEStep, sourceEnded, stopDeck, deckOf, setDeck, setSource, sourceOf] <;>
        split_ifs <;> simp_all [aeInv]
  | setVol d v =>
      cases d <;> simp_all [AEStep, setDeckVolume, deckOf, setDeck, aeInv]
  | setMaster v =>
      simp_all [AEStep, setMasterVolume, aeInv]
  | setCross p =>
      simp_all [AEStep, setCrossfader, aeInv]

theorem aeInv_run (ops : List AEOp) : aeInv (AERun ops) := by
  have main : ∀ (l : List AEOp) (s : AEState), aeInv s → aeInv (l.foldl AEStep s) := by
    intro l
    induction l with
    | nil => intro s hs; simpa using hs
    | cons op tl ih =>
        intro s hs
        exact ih _ (aeInv_step s op hs)
  exact main ops aeInit aeInv_init

end AE

/-- Claim C1 counterexample: the claim asserts the equal-power law for every
crossfader setter of each engine implementation, but `AudioManager.setCrossfader`
uses a linear law: at the center position it writes gain 1 to both decks, so
the two gains are equal to 1 (not `cos(π/4) ≈ 0.707`) and the sum of their
squares is 2, not 1. -/
theorem setCrossfader_center_not_equal_power :
    (AM.setCrossfader 0 AM.amInit).deckAGainT = 1 ∧
    (AM.setCrossfader 0 AM.amInit).deckBGainT = 1 ∧
    ¬((AM.setCrossfader 0 AM.amInit).deckAGainT ^ 2 +
        (AM.setCrossfader 0 AM.amInit).deckBGainT ^ 2 = 1) := by
  refine ⟨by simp [AM.setCrossfader, AM.amInit],
          by simp [AM.setCrossfader, AM.amInit], ?_⟩
  simp [AM.setCrossfader, AM.amInit]

/-- Claim C1, amended: the `AudioEngine` implementation obeys the equal-power
law.  `setCrossfader` clamps the position to `[0, 1]` and `updateCrossfader`
applies gains `cos(p·π/2)` and `sin(p·π/2)` to the stored position; the
squares of the gains always sum to 1, at the center both gains are equal
(`cos(π/4)`, not 1), and at each extreme the active deck has gain 1 while
the opposite deck has gain 0.  The `AudioManager` implementation instead
uses a linear law (see the counterexample). -/
theorem crossfader_equal_power_ae (s : AE.AEState) (p : ℚ) :
    (AE.setCrossfader p s).crossfaderPosition = max 0 (min 1 p) ∧
    AE.updateCrossfaderGainA (AE.setCrossfader p s).crossfaderPosition ^ 2 +
      AE.updateCrossfaderGainB (AE.setCrossfader p s).crossfaderPosition ^ 2 = 1 ∧
    AE.updateCrossfaderGainA (1/2) = AE.updateCrossfaderGainB (1/2) ∧
    AE.updateCrossfaderGainA 0 = 1 ∧ AE.updateCrossfaderGainB 0 = 0 ∧
    AE.updateCrossfaderGainA 1 = 0 ∧ AE.updateCrossfaderGainB 1 = 1 := by
  have hhalf : ((1/2 : ℚ) : ℝ) * Real.pi / 2 = Real.pi / 4 := by push_cast; ring
  have hone : ((1 : ℚ) : ℝ) * Real.pi / 2 = Real.pi / 2 := by push_cast; ring
  refine ⟨rfl, ?_, ?_, ?_, ?_, ?_, ?_⟩
  · simp [AE.updateCrossfaderGainA, AE.updateCrossfaderGainB, Real.cos_sq_add_sin_sq]
  · unfold AE.updateCrossfaderGainA AE.updateCrossfaderGainB
    rw [hhalf, Real.cos_pi_div_four, Real.sin_pi_div_four]
  · simp [AE.updateCrossfaderGainA]
  · simp [AE.updateCrossfaderGainB]
  · simp [AE.updateCrossfaderGainA, hone]
  · simp [AE.updateCrossfaderGainB, hone]

/-- Claim C2 counterexample: in `AudioManager`, after load; play; pause the
track's `source` field is still non-null although the track is no longer
playing — `pauseTrack` stops and disconnects the node but never clears the
reference, so "activeSource non-null iff Playing" fails. -/
theorem pauseTrack_stale_source :
    ((AM.lookupT "t"
        ((AM.pauseTrack "t" 90
          ((AM.playTrack "t" DeckId.A 0 (AM.loadTrack "t" 180 AM.amInit)).2)).2.tracks)).map
      (fun t => (t.source.isSome, t.isPlaying))) = some (true, false) := by
  simp [AM.pauseTrack, AM.playTrack, AM.loadTrack, AM.amInit, AM.lookupT, AM.insertT,
    AM.updateT, AM.stopOld]

/-- Claim C2, amended: in the `AudioEngine` implementation the invariant
does hold — after any sequence of engine operations from the initial state,
a deck's source reference is non-null exactly when that deck is playing.
(`AudioManager` retains a stale source reference after pause/stop, see the
counterexample.) -/
theorem activeSource_iff_playing_ae (ops : List AE.AEOp) (d : DeckId) :
    AE.sourceOf d (AE.AERun ops) = true ↔ (AE.deckOf d (AE.AERun ops)).isPlaying = true := by
  have h := AE.aeInv_run ops
  obtain ⟨h1, h2, h3, h4⟩ := h
  cases d <;> simp [AE.sourceOf, AE.deckOf, h1, h2]

/-- Claim C3: pause/resume round trip in `AudioManager`.  For any loaded
track, after `play()` at clock `n₁` the position at clock `n₂` is
`pausedAt + (n₂ - n₁)`; pausing at `n₂` freezes exactly that value (read at
any later clock `m`); playing again at `n₃` resumes from it, so at clock
`n₄` the position is the pause position plus `n₄ - n₃` (epsilon is 0 in the
exact rational model). -/
theorem pause_resume_roundtrip (s : AM.AMState) (id : String) (dk : DeckId)
    (e : AM.AMTrack) (n₁ n₂ n₃ n₄ m : ℚ)
    (h : AM.lookupT id s.tracks = some e) :
    AM.getCurrentTime id n₂ ((AM.playTrack id dk n₁ s).2) = e.pausedAt + (n₂ - n₁) ∧
    AM.getCurrentTime id m
      ((AM.pauseTrack id n₂ ((AM.playTrack id dk n₁ s).2)).2) = e.pausedAt + (n₂ - n₁) ∧
    AM.getCurrentTime id n₄
      ((AM.playTrack id dk n₃
        ((AM.pauseTrack id n₂ ((AM.playTrack id dk n₁ s).2)).2)).2)
      = (e.pausedAt + (n₂ - n₁)) + (n₄ - n₃) := by
  refine ⟨?_, ?_, ?_⟩ <;>
    · simp [AM.playTrack, AM.pauseTrack, AM.getCurrentTime, AM.stopOld, h]
      ring

/-- Witness for C3: the spec's end-to-end scenario.  Load a 180-second
buffer, play at clock 0, pause at clock 90: the position reads 90; play
again at clock 90 and read at clock 95: the position reads 95. -/
theorem pause_resume_roundtrip_witness :
    AM.getCurrentTime "t" 90
      ((AM.pauseTrack "t" 90
        ((AM.playTrack "t" DeckId.A 0 (AM.loadTrack "t" 180 AM.amInit)).2)).2) = 90 ∧
    AM.getCurrentTime "t" 95
      ((AM.playTrack "t" DeckId.A 90
        ((AM.pauseTrack "t" 90
          ((AM.playTrack "t" DeckId.A 0 (AM.loadTrack "t" 180 AM.amInit)).2)).2)).2) = 95 := by
  have h := pause_resume_roundtrip (AM.loadTrack "t" 180 AM.amInit) "t" DeckId.A
    ({ duration := 180, source := none, isPlaying := false,
       startTime := 0, pausedAt := 0, currentTime := 0 }) 0 90 90 95 90
    (by simp [AM.loadTrack])
  norm_num at h
  exact ⟨h.2.1, h.2.2⟩

/-- Claim C4 (code bug): end-of-track race in `AudioManager`.  A 10-second
track plays from clock 0 and its source node ends at clock 10.  If the
polling tick (clock 10.1) runs before the hardware `ended` event is
delivered, it calls `stopTrack` — which fires no notification — and the
later `ended` delivery is suppressed because `isPlaying` is already false:
zero notifications fire, although the deck does reach the Loaded state with
`pausedAt = 0`.  If the event is delivered first, exactly one notification
fires.  The two detection paths disagree, and the polling path zero-fires. -/
theorem endOfTrack_notification_race :
    (AM.deliverEnded "t"
      (AM.pollTick (101/10)
        (AM.hwEnd 0
          ((AM.playTrack "t" DeckId.A 0
            (AM.loadTrack "t" 10 AM.amInit)).2)))).endNotifications = 0 ∧
    ((AM.lookupT "t"
        (AM.deliverEnded "t"
          (AM.pollTick (101/10)
            (AM.hwEnd 0
              ((AM.playTrack "t" DeckId.A 0
                (AM.loadTrack "t" 10 AM.amInit)).2)))).tracks).map
      (fun t => (t.isPlaying, t.pausedAt))) = some (false, 0) ∧
    (AM.pollTick (101/10)
      (AM.deliverEnded "t"
        (AM.hwEnd 0
          ((AM.playTrack "t" DeckId.A 0
            (AM.loadTrack "t" 10 AM.amInit)).2)))).endNotifications = 1 := by
  refine ⟨?_, ?_, ?_⟩ <;>
    norm_num [AM.deliverEnded, AM.pollTick, AM.pollStep, AM.hwEnd, AM.playTrack,
      AM.stopTrack, AM.loadTrack, AM.amInit, AM.lookupT, AM.insertT, AM.updateT,
      AM.stopOld]

/-- Claim C5: `seekTo` clamps the requested position to `[0, duration]`.
For any loaded track: the call returns success; if the track was not
playing, a later `getCurrentTime` (at any clock `m`) returns exactly
`clamp(pos, 0, duration)` and the track is still not playing; if it was
playing, the track is playing again afterwards and the position advances
from the clamped offset (`clamp + (m - now)`), so the playing/paused
category is preserved. -/
theorem seek_clamps_and_preserves (s : AM.AMState) (id : String) (dk : DeckId)
    (e : AM.AMTrack) (pos now m : ℚ)
    (h : AM.lookupT id s.tracks = some e) :
    (AM.seekTo id pos dk now s).1 = true ∧
    (e.isPlaying = false →
      ((AM.lookupT id (AM.seekTo id pos dk now s).2.tracks).map AM.AMTrack.isPlaying
          = some false ∧
        AM.getCurrentTime id m (AM.seekTo id pos dk now s).2
          = max 0 (min e.duration pos))) ∧
    (e.isPlaying = true →
      ((AM.lookupT id (AM.seekTo id pos dk now s).2.tracks).map AM.AMTrack.isPlaying
          = some true ∧
        AM.getCurrentTime id m (AM.seekTo id pos dk now s).2
          = max 0 (min e.duration pos) + (m - now))) := by
  refine ⟨?_, fun hb => ?_, fun hb => ?_⟩
  · simp [AM.seekTo, h]
  · constructor <;>
      simp [AM.seekTo, AM.stopTrack, AM.playTrack, AM.getCurrentTime, AM.stopOld, h, hb]
  · constructor
    · simp [AM.seekTo, AM.stopTrack, AM.playTrack, AM.getCurrentTime, AM.stopOld, h, hb]
    · simp [AM.seekTo, AM.stopTrack, AM.playTrack, AM.getCurrentTime, AM.stopOld, h, hb]
      ring

/-- Witness for C5: load a 180-second track (paused), seek to 200 — beyond
the duration — and read the position at clock 7: it reads exactly 180, the
clamped value, and the track is still not playing. -/
theorem seek_clamps_and_preserves_witness :
    (AM.seekTo "t" 200 DeckId.A 3 (AM.loadTrack "t" 180 AM.amInit)).1 = true ∧
    ((AM.lookupT "t"
        (AM.seekTo "t" 200 DeckId.A 3 (AM.loadTrack "t" 180 AM.amInit)).2.tracks).map
      AM.AMTrack.isPlaying) = some false ∧
    AM.getCurrentTime "t" 7
      (AM.seekTo "t" 200 DeckId.A 3 (AM.loadTrack "t" 180 AM.amInit)).2 = 180 := by
  have h := seek_clamps_and_preserves (AM.loadTrack "t" 180 AM.amInit) "t" DeckId.A
    ({ duration := 180, source := none, isPlaying := false,
       startTime := 0, pausedAt := 0, currentTime := 0 }) 200 3 7
    (by simp [AM.loadTrack])
  have h2 := h.2.1 rfl
  refine ⟨h.1, h2.1, ?_⟩
  have h3 := h2.2
  norm_num at h3
  exact h3

/-- Claim C6: `play()` with no loaded buffer signals the error return and
performs no state change, in both implementations: `AudioManager.playTrack`
returns `false` with the state unchanged when the track id is not in the
map, and `AudioEngine.playDeck` returns `false` with the state unchanged
when the deck has no loaded track. -/
theorem play_notLoaded_noop (s : AM.AMState) (t : AE.AEState) (id : String)
    (dk d : DeckId) (n n2 : ℚ)
    (h1 : AM.lookupT id s.tracks = none)
    (h2 : (AE.deckOf d t).hasTrack = false) :
    AM.playTrack id dk n s = (false, s) ∧ AE.playDeck d n2 t = (false, t) := by
  constructor
  · simp [AM.playTrack, h1]
  · simp [AE.playDeck, h2]

/-- Witness for C6: playing on the freshly initialized states (nothing
loaded anywhere) fails and changes nothing. -/
theorem play_notLoaded_noop_witness :
    AM.playTrack "t" DeckId.A 0 AM.amInit = (false, AM.amInit) ∧
    AE.playDeck DeckId.A 0 AE.aeInit = (false, AE.aeInit) := by
  exact play_notLoaded_noop AM.amInit AE.aeInit "t" DeckId.A DeckId.A 0 0
    (by simp [AM.amInit, AM.lookupT])
    (by simp [AE.aeInit, AE.deckOf, AE.initDeck])

/-- Claim C7 counterexample: in `AudioManager`, calling `playTrack` while
the track is already playing is not a no-op.  With a 180-second track
playing since clock 0, the position at clock 50 reads 50; a second
`playTrack` at clock 50 returns success but restarts the track from offset
`pausedAt = 0`, after which the position reads 0. -/
theorem playTrack_retrigger_restarts :
    (AM.playTrack "t" DeckId.A 50
        ((AM.playTrack "t" DeckId.A 0 (AM.loadTrack "t" 180 AM.amInit)).2)).1 = true ∧
    AM.getCurrentTime "t" 50
      ((AM.playTrack "t" DeckId.A 0 (AM.loadTrack "t" 180 AM.amInit)).2) = 50 ∧
    AM.getCurrentTime "t" 50
      ((AM.playTrack "t" DeckId.A 50
        ((AM.playTrack "t" DeckId.A 0 (AM.loadTrack "t" 180 AM.amInit)).2)).2) = 0 := by
  refine ⟨?_, ?_, ?_⟩ <;>
    norm_num [AM.playTrack, AM.getCurrentTime, AM.loadTrack, AM.amInit, AM.lookupT,
      AM.insertT, AM.updateT, AM.stopOld]

/-- Claim C7, amended.  In `AudioEngine`: `playDeck` on a loaded, already
playing deck is a no-op returning success, `pauseDeck` on a non-playing
deck is a no-op, and `stopDeck`/`pauseDeck` are idempotent (second call
changes nothing).  In `AudioManager`: `pauseTrack` on a non-playing track
is a no-op but returns `false` (not success), repeating `pauseTrack` or
`stopTrack` yields the same observable track state as one call, and
`playTrack` while already playing returns success but is not a no-op — it
tears down the source and restarts from the stored `pausedAt`, resetting
the position clock. -/
theorem transport_forgiving_amended :
    (∀ (t : AE.AEState) (d : DeckId) (now : ℚ),
      (AE.deckOf d t).hasTrack = true → (AE.deckOf d t).isPlaying = true →
        AE.playDeck d now t = (true, t)) ∧
    (∀ (t : AE.AEState) (d : DeckId) (now : ℚ),
      (AE.deckOf d t).isPlaying = false → AE.pauseDeck d now t = t) ∧
    (∀ (t : AE.AEState) (d : DeckId),
      AE.stopDeck d (AE.stopDeck d t) = AE.stopDeck d t) ∧
    (∀ (t : AE.AEState) (d : DeckId) (n₁ n₂ : ℚ),
      AE.pauseDeck d n₂ (AE.pauseDeck d n₁ t) = AE.pauseDeck d n₁ t) ∧
    (∀ (s : AM.AMState) (id : String) (now : ℚ) (e : AM.AMTrack),
      AM.lookupT id s.tracks = some e → e.isPlaying = false →
        AM.pauseTrack id now s = (false, s)) ∧
    (∀ (s : AM.AMState) (id : String) (n₁ n₂ : ℚ),
      (AM.pauseTrack id n₂ ((AM.pauseTrack id n₁ s).2)).2 = (AM.pauseTrack id n₁ s).2) ∧
    (∀ (s : AM.AMState) (id : String),
      AM.lookupT id ((AM.stopTrack id ((AM.stopTrack id s).2)).2).tracks
        = AM.lookupT id ((AM.stopTrack id s).2).tracks) ∧
    (∀ (s : AM.AMState) (id : String) (dk : DeckId) (now : ℚ) (e : AM.AMTrack),
      AM.lookupT id s.tracks = some e → e.isPlaying = true →
        (AM.playTrack id dk now s).1 = true ∧
        AM.lookupT id ((AM.playTrack id dk now s).2).tracks
          = some { e with source := some s.nextSrc, startTime := now - e.pausedAt,
                          isPlaying := true, pausedAt := 0 }) := by
  refine ⟨?_, ?_, ?_, ?_, ?_, ?_, ?_, ?_⟩
  · intro t d now h1 h2
    cases d <;> simp [AE.playDeck, AE.deckOf] at h1 h2 ⊢ <;> simp [h1, h2]
  · intro t d now h1
    cases d <;> simp [AE.pauseDeck, AE.deckOf] at h1 ⊢ <;> simp [h1]
  · intro t d
    cases d <;>
      · simp only [AE.stopDeck, AE.deckOf, AE.setDeck, AE.setSource, AE.sourceOf]
        split_ifs <;> simp_all
  · intro t d n₁ n₂
    cases d <;>
      · simp only [AE.pauseDeck, AE.deckOf, AE.setDeck, AE.setSource, AE.sourceOf]
        split_ifs <;> simp_all
  · intro s id now e h1 h2
    simp [AM.pauseTrack, h1, h2]
  · intro s id n₁ n₂
    rcases hl : AM.lookupT id s.tracks with _ | e
    · simp [AM.pauseTrack, hl]
    · by_cases hp : e.isPlaying
      · simp [AM.pauseTrack, hl, hp, AM.stopOld]
      · simp [AM.pauseTrack, hl, hp]
  · intro s id
    rcases hl : AM.lookupT id s.tracks with _ | e
    · simp [AM.stopTrack, hl]
    · simp [AM.stopTrack, hl, AM.stopOld]
  · intro s id dk now e h1 h2
    simp [AM.playTrack, h1, h2]

/-- Witness for C7: concrete checks of the amended statement.  On the
engine with a 180-second track loaded to deck A and playing since clock 0,
a second `playDeck` at clock 50 is an exact no-op returning success; on the
`AudioManager` side, `pauseTrack` of a loaded, non-playing track returns
`false` and changes nothing. -/
theorem transport_forgiving_amended_witness :
    AE.playDeck DeckId.A 50
        ((AE.playDeck DeckId.A 0 (AE.loadTrackToDeck 180 DeckId.A AE.aeInit)).2)
      = (true, (AE.playDeck DeckId.A 0 (AE.loadTrackToDeck 180 DeckId.A AE.aeInit)).2) ∧
    AM.pauseTrack "t" 5 (AM.loadTrack "t" 180 AM.amInit)
      = (false, AM.loadTrack "t" 180 AM.amInit) := by
  constructor
  · exact transport_forgiving_amended.1
      ((AE.playDeck DeckId.A 0 (AE.loadTrackToDeck 180 DeckId.A AE.aeInit)).2)
      DeckId.A 50
      (by simp [AE.playDeck, AE.loadTrackToDeck, AE.stopDeck, AE.deckOf, AE.setDeck,
        AE.setSource, AE.sourceOf, AE.aeInit, AE.initDeck])
      (by simp [AE.playDeck, AE.loadTrackToDeck, AE.stopDeck, AE.deckOf, AE.setDeck,
        AE.setSource, AE.sourceOf, AE.aeInit, AE.initDeck])
  · exact transport_forgiving_amended.2.2.2.2.1
      (AM.loadTrack "t" 180 AM.amInit) "t" 5
      ({ duration := 180, source := none, isPlaying := false,
         startTime := 0, pausedAt := 0, currentTime := 0 })
      (by simp [AM.loadTrack]) rfl

/-- Helper: one `pollStep` (for an arbitrary map key `k`) keeps a playing
entry that has not yet reached its duration intact except possibly for its
`currentTime` display field. -/
theorem pollStep_keeps_entry (now : ℚ) (id : String) (e : AM.AMTrack)
    (hp : e.isPlaying = true) (hd : now - e.startTime < e.duration)
    (k : String) (s : AM.AMState) (c : ℚ)
    (hl : AM.lookupT id s.tracks = some { e with currentTime := c }) :
    ∃ c2, AM.lookupT id (AM.pollStep now s k).tracks
      = some { e with currentTime := c2 } := by
  by_cases hk : k = id
  · subst hk
    refine ⟨now - e.startTime, ?_⟩
    have hnotend : ¬(now - e.startTime ≥ e.duration) := by
      simpa [ge_iff_le, not_le] using hd
    simp [AM.pollStep, hl, hp, hnotend]
  · rcases hkl : AM.lookupT k s.tracks with _ | t
    · exact ⟨c, by simpa [AM.pollStep, hkl] using hl⟩
    · by_cases htp : t.isPlaying
      · by_cases hend : now - t.startTime ≥ t.duration
        · refine ⟨c, ?_⟩
          have h1 : AM.lookupT id (AM.updateT k
              (fun u => { u with currentTime := now - u.startTime }) s.tracks)
              = some { e with currentTime := c } := by
            rw [AM.lookupT_updateT_ne id k (Ne.symm hk)]
            exact hl
          simp only [AM.pollStep, hkl, htp, if_true, hend, if_pos]
          rcases hkl2 : AM.lookupT k (AM.updateT k
              (fun u => { u with currentTime := now - u.startTime }) s.tracks) with _ | t2
          · simpa [AM.stopTrack, hkl2] using h1
          · simp only [AM.stopTrack, hkl2]
            rw [AM.lookupT_updateT_ne id k (Ne.symm hk)]
            exact h1
        · refine ⟨c, ?_⟩
          simp only [AM.pollStep, hkl, htp, if_true, hend, if_neg, if_false]
          rw [AM.lookupT_updateT_ne id k (Ne.symm hk)]
          exact hl
      · exact ⟨c, by simpa [AM.pollStep, hkl, htp] using hl⟩

/-- Helper: folding `pollStep` over any list of keys keeps a playing entry
that has not reached its duration, up to the `currentTime` display field. -/
theorem pollFold_keeps_entry (now : ℚ) (id : String) (e : AM.AMTrack)
    (hp : e.isPlaying = true) (hd : now - e.startTime < e.duration) :
    ∀ (ks : List String) (s : AM.AMState) (c : ℚ),
      AM.lookupT id s.tracks = some { e with currentTime := c } →
      ∃ c2, AM.lookupT id (ks.foldl (AM.pollStep now) s).tracks
        = some { e with currentTime := c2 } := by
  intro ks
  induction ks with
  | nil => intro s c hl; exact ⟨c, hl⟩
  | cons k tl ih =>
      intro s c hl
      obtain ⟨c1, h1⟩ := pollStep_keeps_entry now id e hp hd k s c hl
      exact ih (AM.pollStep now s k) c1 h1

/-- Claim C8: position-clock correctness.  In `AudioManager`: a track id
not in the map reads position 0; after `play()` at clock `n₁` from stored
offset `pausedAt`, the position at any clock `n` is `n - anchorTime` with
`anchorTime = n₁ - pausedAt`; and a polling tick never changes the reported
position of a playing track that has not reached its duration (polling
cadence is irrelevant to correctness).  In `AudioEngine`: a deck that never
got a track loaded reads position 0 after any operation sequence, and after
`playDeck` at clock `n₁` the position at clock `n` is `n - (n₁ - position)`. -/
theorem position_clock :
    (∀ (s : AM.AMState) (id : String) (now : ℚ),
      AM.lookupT id s.tracks = none → AM.getCurrentTime id now s = 0) ∧
    (∀ (s : AM.AMState) (id : String) (dk : DeckId) (n₁ n : ℚ) (e : AM.AMTrack),
      AM.lookupT id s.tracks = some e →
        AM.getCurrentTime id n ((AM.playTrack id dk n₁ s).2)
          = n - (n₁ - e.pausedAt)) ∧
    (∀ (s : AM.AMState) (id : String) (n : ℚ) (e : AM.AMTrack),
      AM.lookupT id s.tracks = some e → e.isPlaying = true →
        n - e.startTime < e.duration →
        AM.getCurrentTime id n (AM.pollTick n s) = AM.getCurrentTime id n s) ∧
    (∀ (ops : List AE.AEOp) (d : DeckId) (n : ℚ),
      (AE.deckOf d (AE.AERun ops)).hasTrack = false →
        AE.getCurrentPosition d n (AE.AERun ops) = 0) ∧
    (∀ (t : AE.AEState) (d : DeckId) (n₁ n : ℚ),
      (AE.deckOf d t).hasTrack = true → (AE.deckOf d t).isPlaying = false →
        AE.getCurrentPosition d n ((AE.playDeck d n₁ t).2)
          = n - (n₁ - (AE.deckOf d t).position)) := by
  refine ⟨?_, ?_, ?_, ?_, ?_⟩
  · intro s id now h
    simp [AM.getCurrentTime, h]
  · intro s id dk n₁ n e h
    simp [AM.playTrack, AM.getCurrentTime, AM.stopOld, h]
  · intro s id n e h1 h2 h3
    obtain ⟨c2, hc⟩ := pollFold_keeps_entry n id e h2 h3
      (s.tracks.map Prod.fst) s e.currentTime (by exact h1)
    simp [AM.pollTick, AM.getCurrentTime, hc, h1, h2]
  · intro ops d n h
    obtain ⟨h1, h2, h3, h4⟩ := AE.aeInv_run ops
    cases d
    · obtain ⟨hp, hq⟩ := h3 (by simpa [AE.deckOf] using h)
      simp [AE.getCurrentPosition, AE.deckOf, hp, hq]
    · obtain ⟨hp, hq⟩ := h4 (by simpa [AE.deckOf] using h)
      simp [AE.getCurrentPosition, AE.deckOf, hp, hq]
  · intro t d n₁ n h1 h2
    cases d <;>
      · simp [AE.deckOf] at h1 h2
        simp [AE.playDeck, AE.getCurrentPosition, AE.deckOf, AE.setDeck, AE.setSource,
          h1, h2]

/-- Witness for C8: concrete reads.  An unknown id reads 0; a track loaded
with `pausedAt = 0` played at clock 2 reads 10 at clock 12; a polling tick
at clock 5 does not change the reported position of a playing 180-second
track; the initial engine (no track ever loaded) reads 0; and deck A loaded
(position 0) then played at clock 0 reads 5 at clock 5. -/
theorem position_clock_witness :
    AM.getCurrentTime "t" 7 AM.amInit = 0 ∧
    AM.getCurrentTime "t" 12
      ((AM.playTrack "t" DeckId.A 2 (AM.loadTrack "t" 180 AM.amInit)).2) = 12 - (2 - 0) ∧
    AM.getCurrentTime "t" 5
        (AM.pollTick 5 ((AM.playTrack "t" DeckId.A 0 (AM.loadTrack "t" 180 AM.amInit)).2))
      = AM.getCurrentTime "t" 5
          ((AM.playTrack "t" DeckId.A 0 (AM.loadTrack "t" 180 AM.amInit)).2) ∧
    AE.getCurrentPosition DeckId.A 7 (AE.AERun []) = 0 ∧
    AE.getCurrentPosition DeckId.A 5
        ((AE.playDeck DeckId.A 0 (AE.loadTrackToDeck 180 DeckId.A AE.aeInit)).2)
      = 5 - (0 - (AE.deckOf DeckId.A (AE.loadTrackToDeck 180 DeckId.A AE.aeInit)).position) := by
  refine ⟨?_, ?_, ?_, ?_, ?_⟩
  · exact position_clock.1 AM.amInit "t" 7 (by simp [AM.amInit, AM.lookupT])
  · exact position_clock.2.1 (AM.loadTrack "t" 180 AM.amInit) "t" DeckId.A 2 12
      ({ duration := 180, source := none, isPlaying := false,
         startTime := 0, pausedAt := 0, currentTime := 0 })
      (by simp [AM.loadTrack])
  · exact position_clock.2.2.1
      ((AM.playTrack "t" DeckId.A 0 (AM.loadTrack "t" 180 AM.amInit)).2) "t" 5
      ({ duration := 180, source := some 0, isPlaying := true,
         startTime := 0, pausedAt := 0, currentTime := 0 })
      (by simp [AM.playTrack, AM.loadTrack, AM.amInit, AM.lookupT, AM.insertT,
        AM.updateT, AM.stopOld])
      rfl (by norm_num)
  · exact position_clock.2.2.2.1 [] DeckId.A 7 (by simp [AE.AERun, AE.aeInit, AE.deckOf, AE.initDeck])
  · exact position_clock.2.2.2.2 (AE.loadTrackToDeck 180 DeckId.A AE.aeInit) DeckId.A 0 5
      (by simp [AE.loadTrackToDeck, AE.stopDeck, AE.deckOf, AE.setDeck, AE.setSource,
        AE.aeInit, AE.initDeck])
      (by simp [AE.loadTrackToDeck, AE.stopDeck, AE.deckOf, AE.setDeck, AE.setSource,
        AE.aeInit, AE.initDeck])

/-- Claim C9 counterexample: `AudioManager.loadTrack` does not stop a
playing deck.  With track "t" playing (hardware node 0 live), loading a new
buffer under the same id replaces the map entry with a fresh non-playing
record, yet node 0 is still live — no stop was issued, the old source keeps
rendering. -/
theorem loadTrack_does_not_stop :
    (AM.loadTrack "t" 10
        ((AM.playTrack "t" DeckId.A 0 (AM.loadTrack "t" 10 AM.amInit)).2)).live = [0] ∧
    ((AM.lookupT "t"
        (AM.loadTrack "t" 10
          ((AM.playTrack "t" DeckId.A 0 (AM.loadTrack "t" 10 AM.amInit)).2)).tracks).map
      AM.AMTrack.isPlaying) = some false := by
  constructor <;>
    norm_num [AM.loadTrack, AM.playTrack, AM.amInit, AM.lookupT, AM.insertT,
      AM.updateT, AM.stopOld]

/-- Claim C9, amended: in `AudioEngine`, `loadTrackToDeck` stops the deck
if it is playing (clearing its source), sets the loaded buffer, resets
`position = 0` and leaves the deck loaded and not playing.  In
`AudioManager`, `loadTrack` replaces the map entry with a fresh record
(`isPlaying = false`, `pausedAt = 0`, no source reference) but never stops
a currently playing source for that id — the set of live hardware nodes is
untouched. -/
theorem load_amended :
    (∀ (t : AE.AEState) (d : DeckId) (dur : ℚ),
      (AE.deckOf d (AE.loadTrackToDeck dur d t)).hasTrack = true ∧
      (AE.deckOf d (AE.loadTrackToDeck dur d t)).trackDuration = dur ∧
      (AE.deckOf d (AE.loadTrackToDeck dur d t)).position = 0 ∧
      (AE.deckOf d (AE.loadTrackToDeck dur d t)).isPlaying = false ∧
      ((AE.deckOf d t).isPlaying = true →
        AE.sourceOf d (AE.loadTrackToDeck dur d t) = false)) ∧
    (∀ (s : AM.AMState) (id : String) (dur : ℚ),
      (AM.loadTrack id dur s).live = s.live ∧
      AM.lookupT id (AM.loadTrack id dur s).tracks
        = some { duration := dur, source := none, isPlaying := false,
                 startTime := 0, pausedAt := 0, currentTime := 0 }) := by
  constructor
  · intro t d dur
    refine ⟨?_, ?_, ?_, ?_, ?_⟩ <;>
      cases d <;>
        simp only [AE.loadTrackToDeck, AE.stopDeck, AE.deckOf, AE.setDeck,
          AE.setSource, AE.sourceOf] <;>
        split_ifs <;> simp_all
  · intro s id dur
    exact ⟨rfl, by simp [AM.loadTrack]⟩

/-- Witness for C9 (for the implication hypothesis inside the amended
statement): loading a 20-second buffer onto deck A of the engine while it
is playing a 180-second one leaves the deck loaded, at position 0, not
playing, and with its source reference cleared. -/
theorem load_amended_witness :
    (AE.deckOf DeckId.A (AE.loadTrackToDeck 20 DeckId.A
        ((AE.playDeck DeckId.A 0 (AE.loadTrackToDeck 180 DeckId.A AE.aeInit)).2))).hasTrack
      = true ∧
    (AE.deckOf DeckId.A (AE.loadTrackToDeck 20 DeckId.A
        ((AE.playDeck DeckId.A 0 (AE.loadTrackToDeck 180 DeckId.A AE.aeInit)).2))).isPlaying
      = false ∧
    AE.sourceOf DeckId.A (AE.loadTrackToDeck 20 DeckId.A
        ((AE.playDeck DeckId.A 0 (AE.loadTrackToDeck 180 DeckId.A AE.aeInit)).2))
      = false := by
  have h := load_amended.1
    ((AE.playDeck DeckId.A 0 (AE.loadTrackToDeck 180 DeckId.A AE.aeInit)).2) DeckId.A 20
  refine ⟨h.1, h.2.2.2.1, ?_⟩
  exact h.2.2.2.2 (by simp [AE.playDeck, AE.loadTrackToDeck, AE.stopDeck, AE.deckOf,
    AE.setDeck, AE.setSource, AE.sourceOf, AE.aeInit, AE.initDeck])

/-- Claim C10: frame property of the gain setters.  In both
implementations, `setDeckVolume`, `setMasterVolume` and `setCrossfader`
leave the whole transport state untouched: in `AudioManager` the tracks
map, the live hardware nodes, the node counter and the notification count
are unchanged; in `AudioEngine` every deck field except the stored volume,
and both source references, are unchanged.  Only gain values and gain-node
automation targets change. -/
theorem gain_setters_frame (s : AM.AMState) (t : AE.AEState) (d : DeckId)
    (v w p q u z : ℚ) :
    AM.transportOf (AM.setDeckVolume d v s) = AM.transportOf s ∧
    AM.transportOf (AM.setMasterVolume w s) = AM.transportOf s ∧
    AM.transportOf (AM.setCrossfader p s) = AM.transportOf s ∧
    AE.transportOf (AE.setDeckVolume d q t) = AE.transportOf t ∧
    AE.transportOf (AE.setMasterVolume u t) = AE.transportOf t ∧
    AE.transportOf (AE.setCrossfader z t) = AE.transportOf t := by
  refine ⟨?_, rfl, rfl, ?_, rfl, rfl⟩ <;> cases d <;> rfl
